import Mathlib

/-!
Shallow embedding of `src/main.py` (Tableau project-data reconciliation).

Python/JSON scalar values used as identifiers are modelled by `PyVal`;
the project/user dicts become structures whose optional fields are `none`
while the corresponding key is absent.  The in-place enrichment loop of
`main` is modelled by explicit state passing over the project list
(`List.set` plays the role of mutating the shared dict at an index), and
the pass-2 `parentProject` value — a reference to a dict in the same
list — is modelled as an index into that list.
-/

/-- A Python/JSON scalar as it occurs in the id fields handled by
`main.py`: a string, an integer, or Python `None`. -/
inductive PyVal where
  | str (s : String)
  | int (n : Int)
  | pynone
deriving DecidableEq, Repr

/-- Python `str(x)` on the values above (`str(None) = "None"`,
integers print in decimal with a leading `-` when negative). -/
def pyStr : PyVal → String
  | .str s => s
  | .int n => toString n
  | .pynone => "None"

/-- Python `==` on the values above: equal strings, equal integers,
`None == None`; any cross-type comparison is `False`. -/
def pyEq : PyVal → PyVal → Bool
  | .str a, .str b => a == b
  | .int a, .int b => a == b
  | .pynone, .pynone => true
  | _, _ => false

/-- Python truthiness on the values above (`""`, `0` and `None` are
falsy, everything else is truthy). -/
def pyTruthy : PyVal → Bool
  | .str s => !(s == "")
  | .int n => !(n == 0)
  | .pynone => false

/-- A user dict from the VizPortal `getProjects` response
(`result["users"]`), with the fields `main.py` reads. -/
structure VPUser where
  id : PyVal
  displayName : String
  username : String
deriving DecidableEq, Repr

/-- A `TSC.ProjectItem` from the REST API, with the fields `main.py`
reads (`item.id` and `content_permissions`). -/
structure RestProject where
  id : PyVal
  content_permissions : String
deriving DecidableEq, Repr

/-- A project dict from the VizPortal `getProjects` response, with the
keys `main.py` reads plus the keys the reconciliation writes (a `none`
means the key is absent).  `parentProject`, written by pass 2, holds the
result of `lookup_parent_project` — a reference to a dict of the same
list, modelled as its index; the inner `none` is the Python `None`
stored when that lookup fails. -/
structure VPCProject where
  id : PyVal
  luid : PyVal
  topLevelProject : Bool
  parentProjectId : Option PyVal
  ownerId : PyVal
  siteName : Option String
  contentPermissions : Option String
  ownerName : Option String
  ownerDSID : Option String
  projectLevel : Option Nat
  rootProjectId : Option PyVal
  parentProject : Option (Option Nat)
deriving DecidableEq, Repr

/-- `lookup_user_by_id`: first user whose `"id"` equals `str(user_id)`,
`None` when there is none. -/
def lookup_user_by_id (vpc_users : List VPUser) (user_id : PyVal) : Option VPUser :=
  vpc_users.find? fun user => pyEq user.id (.str (pyStr user_id))

/-- `lookup_project_by_id`: first REST project with `item.id == item_id`
— no `str(...)` coercion of the query, unlike the two VizPortal lookups. -/
def lookup_project_by_id (items : List RestProject) (item_id : PyVal) : Option RestProject :=
  items.find? fun item => pyEq item.id item_id

/-- `lookup_parent_project`: first VizPortal project whose `"id"` equals
`str(parent_id)`. -/
def lookup_parent_project (vpc_projects : List VPCProject) (parent_id : PyVal) :
    Option VPCProject :=
  vpc_projects.find? fun project => pyEq project.id (.str (pyStr parent_id))

/-- Index form of `lookup_parent_project`: the position of the dict the
Python lookup returns a reference to. -/
def lookup_parent_index (vpc_projects : List VPCProject) (parent_id : PyVal) : Option Nat :=
  match vpc_projects with
  | [] => none
  | project :: rest =>
    if pyEq project.id (.str (pyStr parent_id)) then some 0
    else (lookup_parent_index rest parent_id).map (· + 1)

/-- Outcome of a fuel-bounded run of the parent walk in
`get_project_level_and_root`.  The Python loop
`for project_level in count(1)` is unbounded, so Python divergence shows
up here as `timeout` for every fuel; `keyError` is Python's `KeyError`
on `vpc_project["parentProjectId"]` with the key absent, `typeError` is
the `TypeError` from `parent_project["topLevelProject"]` when
`lookup_parent_project` returned `None`. -/
inductive WalkResult where
  | ok (level : Nat) (root : PyVal)
  | keyError
  | typeError
  | timeout
deriving DecidableEq, Repr

/-- Body of the `for project_level in count(1)` loop of
`get_project_level_and_root`, bounded by fuel. -/
def walkFrom (vpc_projects : List VPCProject) : Nat → Nat → VPCProject → WalkResult
  | 0, _, _ => .timeout
  | fuel + 1, project_level, vpc_project =>
    match vpc_project.parentProjectId with
    | none => .keyError
    | some pid =>
      match lookup_parent_project vpc_projects pid with
      | none => .typeError
      | some parent_project =>
        if parent_project.topLevelProject then .ok project_level parent_project.luid
        else walkFrom vpc_projects fuel (project_level + 1) parent_project

/-- `get_project_level_and_root`, with the loop bounded by `fuel`
iterations. -/
def get_project_level_and_root (vpc_projects : List VPCProject) (vpc_project : VPCProject)
    (fuel : Nat) : WalkResult :=
  if vpc_project.topLevelProject then .ok 0 vpc_project.luid
  else walkFrom vpc_projects fuel 1 vpc_project

/-- Adding one to the level of a successful walk. -/
def bumpLevel : WalkResult → WalkResult
  | .ok l r => .ok (l + 1) r
  | .keyError => .keyError
  | .typeError => .typeError
  | .timeout => .timeout

/-- The fields of a project dict that the reconciliation never writes:
the two merge passes only add enrichment keys, so these stay fixed. -/
def coreEq (p q : VPCProject) : Prop :=
  p.id = q.id ∧ p.luid = q.luid ∧ p.topLevelProject = q.topLevelProject ∧
  p.parentProjectId = q.parentProjectId ∧ p.ownerId = q.ownerId

/-- The collections `main` holds once the two fetches are done (REST
projects with permissions, VizPortal users and projects). -/
structure MainState where
  rest_projects : List RestProject
  vpc_users : List VPUser
  vpc_projects : List VPCProject
deriving DecidableEq, Repr

/-- The ways the merge section of `main` aborts.  Only
`projectNotFound` is an explicit `raise` in the source (its message
carries the luid); `ownerNoneTypeError` is the uncaught `TypeError`
from `project_owner["displayName"]` when `lookup_user_by_id` returned
`None` — it carries no identifier; the `walk*` variants propagate the
walker outcomes. -/
inductive RunError where
  | projectNotFound (luid : PyVal)
  | ownerNoneTypeError
  | walkKeyError
  | walkTypeError
  | walkTimeout
deriving DecidableEq, Repr

/-- The pass-1 writes to `vpc_project` that happen before the walker is
invoked: site name, content permissions, owner display name and owner
secondary id. -/
def enrichPre (site_name : String) (rest_project : RestProject) (project_owner : VPUser)
    (p : VPCProject) : VPCProject :=
  { p with siteName := some site_name,
           contentPermissions := some rest_project.content_permissions,
           ownerName := some project_owner.displayName,
           ownerDSID := some project_owner.username }

/-- The fully pass-1-enriched project: the writes of `enrichPre` plus
the walker's level and root. -/
def enrichPost (site_name : String) (rest_project : RestProject) (project_owner : VPUser)
    (level : Nat) (root : PyVal) (p : VPCProject) : VPCProject :=
  { enrichPre site_name rest_project project_owner p with
      projectLevel := some level, rootProjectId := some root }

/-- One iteration of the pass-1 loop of `main` on the project at index
`i` of the shared collection.  The source's interleaved in-place writes
are collapsed into `enrichPre`/`enrichPost`: the intermediate writes are
observable only through the walker call, which in the source sees the
current dict with the pre-walk keys already written — reflected here by
walking from `enrichPre … p` inside the correspondingly updated
collection.  The error constructors match the source's exceptions, all
of which abort the run. -/
def pass1Step (site_name : String) (fuel : Nat) (st : MainState) (i : Nat) :
    Except RunError MainState :=
  match st.vpc_projects[i]? with
  | none => .ok st
  | some p =>
    match lookup_project_by_id st.rest_projects p.luid with
    | none => .error (.projectNotFound p.luid)
    | some rest_project =>
      match lookup_user_by_id st.vpc_users p.ownerId with
      | none => .error .ownerNoneTypeError
      | some project_owner =>
        match get_project_level_and_root
            (st.vpc_projects.set i (enrichPre site_name rest_project project_owner p))
            (enrichPre site_name rest_project project_owner p) fuel with
        | .ok level root =>
          .ok { st with vpc_projects := (st.vpc_projects.set i (enrichPost site_name rest_project project_owner level root p)) }
        | .keyError => .error .walkKeyError
        | .typeError => .error .walkTypeError
        | .timeout => .error .walkTimeout

/-- The pass-1 loop `for vpc_project in vpc_projects`, from index `i`
for `k` more iterations; the first exception aborts the loop. -/
def pass1Go (site_name : String) (fuel : Nat) :
    Nat → Nat → MainState → Except RunError MainState
  | 0, _, st => .ok st
  | k + 1, i, st =>
    match pass1Step site_name fuel st i with
    | .error e => .error e
    | .ok st' => pass1Go site_name fuel k (i + 1) st'

/-- The pass-2 write for one project dict: if
`vpc_project.get("parentProjectId")` is truthy, store the reference
returned by `lookup_parent_project` (as an index into `base`),
otherwise leave the dict untouched. -/
def pass2Update (base : List VPCProject) (p : VPCProject) : VPCProject :=
  match p.parentProjectId with
  | none => p
  | some pid =>
    if pyTruthy pid then { p with parentProject := some (lookup_parent_index base pid) }
    else p

/-- One iteration of the pass-2 loop on the project at index `i`. -/
def pass2Step (st : MainState) (i : Nat) : MainState :=
  match st.vpc_projects[i]? with
  | none => st
  | some p =>
    { st with vpc_projects := st.vpc_projects.set i (pass2Update st.vpc_projects p) }

/-- The pass-2 loop, from index `i` for `k` more iterations. -/
def pass2Go : Nat → Nat → MainState → MainState
  | 0, _, st => st
  | k + 1, i, st => pass2Go k (i + 1) (pass2Step st i)

/-- The merge-and-output section of `main` (source lines 117–156): the
pass-1 enrichment loop over every VizPortal project, then the pass-2
parent-embedding loop, then `json.dump` of the project list.  A
`.ok` value is the collection written to `output/projects.json`; an
`.error` value means the run aborted with an uncaught exception before
the output file was opened, so no output is written. -/
def runMain (site_name : String) (fuel : Nat) (st : MainState) : Except RunError MainState :=
  match pass1Go site_name fuel st.vpc_projects.length 0 st with
  | .error e => .error e
  | .ok st1 => .ok (pass2Go st1.vpc_projects.length 0 st1)

/-- A project dict with its pass-2 key erased; pass 2 changes nothing
else of a dict. -/
def sansParent (p : VPCProject) : VPCProject := { p with parentProject := none }

/-- The VizPortal server's data, as seen by `get_project_vpc_data`. -/
structure VizPortalServer where
  projects : List VPCProject
  users : List VPUser
deriving DecidableEq, Repr

/-- Modelled from the spec: the VizPortal `getProjects` endpoint itself
is not part of this repository; per the spec it is a paged batch read
whose page is chosen by the caller's `startIndex`/`maxItems` request
parameters, so it answers with the requested slice of the project
collection (plus the user reference set). -/
def serverGetProjects (server : VizPortalServer) (startIndex maxItems : Nat) :
    List VPCProject × List VPUser :=
  ((server.projects.drop startIndex).take maxItems, server.users)

/-- `get_project_vpc_data`: one `getProjects` call with the payload
constants of the source — `"page": {"startIndex": 0, "maxItems": 600}`. -/
def get_project_vpc_data (server : VizPortalServer) : List VPCProject × List VPUser :=
  serverGetProjects server 0 600

/- Concrete fixtures used by the witnesses and counterexamples. -/

/-- Cycle fixture, project A: not top-level, parent is B. -/
def cycA : VPCProject :=
  ⟨.str "a", .str "la", false, some (.str "b"), .str "u1",
   none, none, none, none, none, none, none⟩

/-- Cycle fixture, project B: not top-level, parent is A. -/
def cycB : VPCProject :=
  ⟨.str "b", .str "lb", false, some (.str "a"), .str "u1",
   none, none, none, none, none, none, none⟩

/-- End-to-end fixture user (spec §8). -/
def fixUser : VPUser := ⟨.str "u1", "Alice", "alice@x"⟩

/-- End-to-end fixture REST projects (spec §8). -/
def fixRest : List RestProject :=
  [⟨.str "1", "managed"⟩, ⟨.str "2", "managed"⟩, ⟨.str "3", "locked"⟩]

/-- End-to-end fixture: top-level project, luid "1". -/
def fixP1 : VPCProject :=
  ⟨.str "11", .str "1", true, none, .str "u1",
   none, none, none, none, none, none, none⟩

/-- End-to-end fixture: child of project "1", luid "2". -/
def fixP2 : VPCProject :=
  ⟨.str "12", .str "2", false, some (.str "11"), .str "u1",
   none, none, none, none, none, none, none⟩

/-- End-to-end fixture: child of project "2", luid "3". -/
def fixP3 : VPCProject :=
  ⟨.str "13", .str "3", false, some (.str "12"), .str "u1",
   none, none, none, none, none, none, none⟩

/-- End-to-end fixture VizPortal project list. -/
def fixVPC : List VPCProject := [fixP1, fixP2, fixP3]

/-- End-to-end fixture state. -/
def mainFix : MainState := ⟨fixRest, [fixUser], fixVPC⟩

/-- The collection `main` writes for the end-to-end fixture. -/
def mainFixOut : MainState :=
  match runMain "site" 9 mainFix with
  | .ok s => s
  | .error _ => ⟨[], [], []⟩

/-- The enriched record `main` produces for `fixP3` (checked against the
run by `rfl`): level 2 under root "1", permissions copied from the REST
project with id "3", owner data from `fixUser`, and a pass-2 parent
reference to index 1 (the enriched `fixP2`). -/
def fixP3out : VPCProject :=
  ⟨.str "13", .str "3", false, some (.str "12"), .str "u1",
   some "site", some "locked", some "Alice", some "alice@x",
   some 2, some (.str "1"), some (some 1)⟩

/-- Join-failure fixture: one VizPortal project whose luid "9" has no
REST counterpart. -/
def badJoinFix : MainState :=
  ⟨[], [],
   [⟨.str "91", .str "9", true, none, .str "u1",
     none, none, none, none, none, none, none⟩]⟩

/-- Unknown-owner fixture: the join succeeds but ownerId "u9" matches
no user. -/
def ownerMissFix : MainState :=
  ⟨[⟨.str "1", "managed"⟩], [],
   [⟨.str "11", .str "1", true, none, .str "u9",
     none, none, none, none, none, none, none⟩]⟩

/-- Empty-string parent-id fixture: project `emptyIdChild` has the key
`parentProjectId` present (non-absent) with value `""`, and a project
whose id is `""` exists. -/
def emptyIdParent : VPCProject :=
  ⟨.str "", .str "1", true, none, .str "u1",
   none, none, none, none, none, none, none⟩

/-- Child whose parent-identifier is the empty string. -/
def emptyIdChild : VPCProject :=
  ⟨.str "p2", .str "2", false, some (.str ""), .str "u1",
   none, none, none, none, none, none, none⟩

/-- State for the empty-string parent-id fixture. -/
def emptyIdFix : MainState :=
  ⟨[⟨.str "1", "managed"⟩, ⟨.str "2", "managed"⟩], [fixUser],
   [emptyIdParent, emptyIdChild]⟩

/-- A minimal server project for the pagination fixture. -/
def mkServerProject (n : Nat) : VPCProject :=
  ⟨.int n, .int n, true, none, .pynone,
   none, none, none, none, none, none, none⟩

/-- A server holding 601 projects — one more than the page the source
requests (the first 600, then one extra). -/
def bigServer : VizPortalServer :=
  ⟨(List.range 600).map mkServerProject ++ [mkServerProject 600], []⟩

/-- A server holding 2 projects, within the requested page. -/
def smallServer : VizPortalServer :=
  ⟨[mkServerProject 0, mkServerProject 1], [fixUser]⟩

/-! ## General lemmas about the embedding -/

theorem pyEq_eq_decide (x y : PyVal) : pyEq x y = decide (x = y) := by
  by_cases h : x = y
  · subst h; cases x <;> simp [pyEq]
  · rw [decide_eq_false h]
    cases x <;> cases y <;> simp_all [pyEq]

/-- Dereferencing the index returned by `lookup_parent_index` gives
exactly the dict returned by `lookup_parent_project`. -/
theorem lookup_parent_index_bind (l : List VPCProject) (pid : PyVal) :
    (lookup_parent_index l pid).bind (fun j => l[j]?) = lookup_parent_project l pid := by
  induction l with
  | nil => rfl
  | cons p rest ih =>
    by_cases h : pyEq p.id (.str (pyStr pid)) = true
    · simp [lookup_parent_index, lookup_parent_project, List.find?, h]
    · simp only [lookup_parent_index, lookup_parent_project, List.find?] at *
      rw [if_neg h, Bool.not_eq_true] at *
      rw [h]
      cases hr : lookup_parent_index rest pid with
      | none => simp [hr] at ih ⊢; rw [← ih]
      | some j => simp [hr] at ih ⊢; rw [← ih]

/-- Starting the loop counter one higher shifts a successful level by
one and changes nothing else. -/
theorem walkFrom_bump (ps : List VPCProject) :
    ∀ fuel lvl p, walkFrom ps fuel (lvl + 1) p = bumpLevel (walkFrom ps fuel lvl p) := by
  intro fuel
  induction fuel with
  | zero => intro lvl p; rfl
  | succ f ih =>
    intro lvl p
    simp only [walkFrom]
    cases hp : p.parentProjectId with
    | none => rfl
    | some pid =>
      simp only []
      cases hl : lookup_parent_project ps pid with
      | none => rfl
      | some parent =>
        simp only []
        by_cases h : parent.topLevelProject = true
        · rw [if_pos h, if_pos h]; rfl
        · rw [if_neg h, if_neg h]; exact ih (lvl + 1) parent

/-! ## C1: cycle behaviour of the hierarchy walk -/

/-- On the two-project parent cycle the loop body never returns,
whatever the bound: each unfolding steps to the other project. -/
theorem cyc_walkFrom_timeout :
    ∀ fuel lvl, walkFrom [cycA, cycB] fuel lvl cycA = .timeout ∧
      walkFrom [cycA, cycB] fuel lvl cycB = .timeout := by
  intro fuel
  induction fuel with
  | zero => intro lvl; exact ⟨rfl, rfl⟩
  | succ f ih =>
    intro lvl
    refine ⟨?_, ?_⟩
    · show walkFrom [cycA, cycB] f (lvl + 1) cycB = .timeout
      exact (ih (lvl + 1)).2
    · show walkFrom [cycA, cycB] f (lvl + 1) cycA = .timeout
      exact (ih (lvl + 1)).1

/-- C1: on the collection `[cycA, cycB]`, where A's parent is B and B's
parent is A and neither is top-level, `get_project_level_and_root`
never produces a result — for every iteration bound it is still
running, so the Python loop (which has no bound at all) runs forever;
no "cyclic or broken hierarchy" error is ever raised (no such error
path exists in the source). -/
theorem c1_cycle_walk_diverges :
    ∀ fuel, get_project_level_and_root [cycA, cycB] cycA fuel = .timeout :=
  fun fuel => (cyc_walkFrom_timeout fuel 1).1

/-! ## C3: top-level projects -/

/-- C3: a project whose top-level flag is set gets level `0` and its own
luid as ancestor, with no parent traversal (the result is independent of
the collection and of the fuel). -/
theorem c3_top_level_identity (ps : List VPCProject) (p : VPCProject) (fuel : Nat)
    (h : p.topLevelProject = true) :
    get_project_level_and_root ps p fuel = .ok 0 p.luid := by
  simp [get_project_level_and_root, h]

/-- C3 witness: the top-level fixture project, with zero fuel. -/
theorem c3_witness :
    fixP1.topLevelProject = true ∧
    get_project_level_and_root fixVPC fixP1 0 = .ok 0 (.str "1") :=
  ⟨rfl, c3_top_level_identity fixVPC fixP1 0 rfl⟩

/-! ## C4: depth recurrence -/

/-- C4: for a non-top-level project `p` whose parent-identifier resolves
to `q` in the rich collection, a successful walk from `q` gives
`depth p = depth q + 1` with the same top-level ancestor. -/
theorem c4_depth_recurrence (ps : List VPCProject) (p q : VPCProject) (pid : PyVal)
    (fuel l : Nat) (r : PyVal)
    (htop : p.topLevelProject = false)
    (hpid : p.parentProjectId = some pid)
    (hq : lookup_parent_project ps pid = some q)
    (hwalk : get_project_level_and_root ps q fuel = .ok l r) :
    get_project_level_and_root ps p (fuel + 1) = .ok (l + 1) r := by
  unfold get_project_level_and_root at hwalk ⊢
  rw [htop]
  simp only [Bool.false_eq_true, if_false]
  simp only [walkFrom, hpid, hq]
  cases hqt : q.topLevelProject with
  | true =>
    rw [if_pos rfl]
    rw [hqt, if_pos rfl] at hwalk
    obtain ⟨hl, hr⟩ := WalkResult.ok.inj hwalk
    rw [← hl, ← hr]
  | false =>
    rw [if_neg Bool.false_ne_true]
    rw [hqt, if_neg Bool.false_ne_true] at hwalk
    rw [walkFrom_bump ps fuel 1 q, hwalk]
    rfl

/-- C4 witness: in the end-to-end fixture, project "3" is one level
deeper than its parent "2" and shares the ancestor "1". -/
theorem c4_witness :
    fixP3.topLevelProject = false ∧
    fixP3.parentProjectId = some (.str "12") ∧
    lookup_parent_project fixVPC (.str "12") = some fixP2 ∧
    get_project_level_and_root fixVPC fixP2 1 = .ok 1 (.str "1") ∧
    get_project_level_and_root fixVPC fixP3 2 = .ok 2 (.str "1") :=
  ⟨rfl, rfl, by decide, by decide,
   c4_depth_recurrence fixVPC fixP3 fixP2 (.str "12") 1 1 (.str "1")
     rfl rfl (by decide) (by decide)⟩

/-! ## Core-field invariance machinery for the two passes -/

theorem coreEq_refl (p : VPCProject) : coreEq p p := ⟨rfl, rfl, rfl, rfl, rfl⟩

theorem coreEq_symm {p q : VPCProject} (h : coreEq p q) : coreEq q p :=
  ⟨h.1.symm, h.2.1.symm, h.2.2.1.symm, h.2.2.2.1.symm, h.2.2.2.2.symm⟩

theorem coreEq_trans {p q r : VPCProject} (h₁ : coreEq p q) (h₂ : coreEq q r) : coreEq p r :=
  ⟨h₁.1.trans h₂.1, h₁.2.1.trans h₂.2.1, h₁.2.2.1.trans h₂.2.2.1,
   h₁.2.2.2.1.trans h₂.2.2.2.1, h₁.2.2.2.2.trans h₂.2.2.2.2⟩

theorem forall₂_coreEq_refl : ∀ l : List VPCProject, List.Forall₂ coreEq l l
  | [] => List.Forall₂.nil
  | p :: l => List.Forall₂.cons (coreEq_refl p) (forall₂_coreEq_refl l)

theorem forall₂_coreEq_symm {l₁ l₂ : List VPCProject} (h : List.Forall₂ coreEq l₁ l₂) :
    List.Forall₂ coreEq l₂ l₁ := by
  induction h with
  | nil => exact .nil
  | cons hab _ ih => exact .cons (coreEq_symm hab) ih

theorem forall₂_coreEq_trans {l₁ l₂ l₃ : List VPCProject}
    (h₁ : List.Forall₂ coreEq l₁ l₂) (h₂ : List.Forall₂ coreEq l₂ l₃) :
    List.Forall₂ coreEq l₁ l₃ := by
  induction h₁ generalizing l₃ with
  | nil => cases h₂; exact .nil
  | cons hab _ ih => cases h₂ with | cons hbc h' => exact .cons (coreEq_trans hab hbc) (ih h')

theorem forall₂_coreEq_get? {l₁ l₂ : List VPCProject} (h : List.Forall₂ coreEq l₁ l₂) :
    ∀ (i : Nat) (p : VPCProject), l₁[i]? = some p → ∃ q, l₂[i]? = some q ∧ coreEq p q := by
  induction h with
  | nil => intro i p hp; simp at hp
  | @cons a b t₁ t₂ hab _ ih =>
    intro i p hp
    cases i with
    | zero => simp at hp; subst hp; exact ⟨b, by simp, hab⟩
    | succ n =>
      simp only [List.getElem?_cons_succ] at hp ⊢
      exact ih n p hp

theorem forall₂_coreEq_set {ps st : List VPCProject} (h : List.Forall₂ coreEq ps st)
    {p' : VPCProject} : ∀ i : Nat, (∀ b, st[i]? = some b → coreEq b p') →
    List.Forall₂ coreEq ps (st.set i p') := by
  induction h with
  | nil => intro i _; exact .nil
  | cons hab hrest ih =>
    intro i hb
    cases i with
    | zero =>
      simp only [List.set]
      exact .cons (coreEq_trans hab (hb _ (by simp))) hrest
    | succ n =>
      simp only [List.set]
      exact .cons hab (ih n (fun b hbe => hb b (by simpa using hbe)))

theorem lookup_parent_project_core {l₁ l₂ : List VPCProject}
    (h : List.Forall₂ coreEq l₁ l₂) (pid : PyVal) :
    (lookup_parent_project l₁ pid = none ∧ lookup_parent_project l₂ pid = none) ∨
    (∃ a b, lookup_parent_project l₁ pid = some a ∧ lookup_parent_project l₂ pid = some b ∧
      coreEq a b) := by
  induction h with
  | nil => left; exact ⟨rfl, rfl⟩
  | @cons a b t₁ t₂ hab _ ih =>
    by_cases hpa : pyEq a.id (.str (pyStr pid)) = true
    · right
      refine ⟨a, b, ?_, ?_, hab⟩
      · exact List.find?_cons_of_pos t₁ hpa
      · exact List.find?_cons_of_pos t₂ (by rw [← hab.1]; exact hpa)
    · have hpb : ¬ pyEq b.id (.str (pyStr pid)) = true := by rw [← hab.1]; exact hpa
      rcases ih with ⟨h1, h2⟩ | ⟨x, y, hx, hy, hxy⟩
      · left
        exact ⟨by rw [lookup_parent_project, List.find?_cons_of_neg t₁ hpa]; exact h1,
               by rw [lookup_parent_project, List.find?_cons_of_neg t₂ hpb]; exact h2⟩
      · right
        exact ⟨x, y, by rw [lookup_parent_project, List.find?_cons_of_neg t₁ hpa]; exact hx,
               by rw [lookup_parent_project, List.find?_cons_of_neg t₂ hpb]; exact hy, hxy⟩

theorem walkFrom_core {l₁ l₂ : List VPCProject} (h : List.Forall₂ coreEq l₁ l₂) :
    ∀ fuel lvl p q, coreEq p q → walkFrom l₁ fuel lvl p = walkFrom l₂ fuel lvl q := by
  intro fuel
  induction fuel with
  | zero => intro lvl p q _; rfl
  | succ f ih =>
    intro lvl p q hpq
    simp only [walkFrom]
    rw [hpq.2.2.2.1]
    cases hq : q.parentProjectId with
    | none => rfl
    | some pid =>
      simp only []
      rcases lookup_parent_project_core h pid with ⟨h1, h2⟩ | ⟨a, b, ha, hb, hab⟩
      · rw [h1, h2]
      · rw [ha, hb]
        simp only []
        rw [hab.2.2.1]
        by_cases hbt : b.topLevelProject = true
        · rw [if_pos hbt, if_pos hbt, hab.2.1]
        · rw [if_neg hbt, if_neg hbt]
          exact ih (lvl + 1) a b hab

theorem get_level_core {l₁ l₂ : List VPCProject} (h : List.Forall₂ coreEq l₁ l₂)
    (p q : VPCProject) (hpq : coreEq p q) (fuel : Nat) :
    get_project_level_and_root l₁ p fuel = get_project_level_and_root l₂ q fuel := by
  unfold get_project_level_and_root
  rw [hpq.2.2.1, hpq.2.1]
  by_cases ht : q.topLevelProject = true
  · rw [if_pos ht, if_pos ht]
  · rw [if_neg ht, if_neg ht]
    exact walkFrom_core h fuel 1 p q hpq

theorem lookup_parent_index_core {l₁ l₂ : List VPCProject}
    (h : List.Forall₂ coreEq l₁ l₂) (pid : PyVal) :
    lookup_parent_index l₁ pid = lookup_parent_index l₂ pid := by
  induction h with
  | nil => rfl
  | @cons a b t₁ t₂ hab _ ih => simp only [lookup_parent_index, hab.1, ih]

/-! ## Pass-1 step lemmas -/

theorem pass1Step_shape {site : String} {fuel : Nat} {st : MainState} {i : Nat}
    {st' : MainState} (h : pass1Step site fuel st i = .ok st') :
    st'.rest_projects = st.rest_projects ∧ st'.vpc_users = st.vpc_users ∧
    List.Forall₂ coreEq st.vpc_projects st'.vpc_projects ∧
    st'.vpc_projects.length = st.vpc_projects.length := by
  unfold pass1Step at h
  split at h
  · obtain rfl := Except.ok.inj h
    exact ⟨rfl, rfl, forall₂_coreEq_refl _, rfl⟩
  · next p hp =>
    split at h
    · exact Except.noConfusion h
    · next rest_project hr =>
      split at h
      · exact Except.noConfusion h
      · next project_owner ho =>
        split at h
        · next level root hw =>
          obtain rfl := Except.ok.inj h
          refine ⟨rfl, rfl, ?_, by simp⟩
          exact forall₂_coreEq_set (forall₂_coreEq_refl _) i (fun b hb => by
            rw [hp] at hb
            obtain rfl := Option.some.inj hb
            exact ⟨rfl, rfl, rfl, rfl, rfl⟩)
        · exact Except.noConfusion h
        · exact Except.noConfusion h
        · exact Except.noConfusion h

theorem pass1Step_untouched {site : String} {fuel : Nat} {st : MainState} {i : Nat}
    {st' : MainState} (h : pass1Step site fuel st i = .ok st') :
    ∀ j, j ≠ i → st'.vpc_projects[j]? = st.vpc_projects[j]? := by
  unfold pass1Step at h
  split at h
  · obtain rfl := Except.ok.inj h
    intro j _; rfl
  · next p hp =>
    split at h
    · exact Except.noConfusion h
    · next rest_project hr =>
      split at h
      · exact Except.noConfusion h
      · next project_owner ho =>
        split at h
        · next level root hw =>
          obtain rfl := Except.ok.inj h
          intro j hj
          exact List.getElem?_set_ne (fun e => hj e.symm)
        · exact Except.noConfusion h
        · exact Except.noConfusion h
        · exact Except.noConfusion h

theorem pass1Step_enriched {site : String} {fuel : Nat} {st : MainState} {i : Nat}
    {st' : MainState} {p : VPCProject}
    (h : pass1Step site fuel st i = .ok st') (hp : st.vpc_projects[i]? = some p) :
    ∃ rest_project project_owner level root,
      lookup_project_by_id st.rest_projects p.luid = some rest_project ∧
      lookup_user_by_id st.vpc_users p.ownerId = some project_owner ∧
      get_project_level_and_root
        (st.vpc_projects.set i (enrichPre site rest_project project_owner p))
        (enrichPre site rest_project project_owner p) fuel = .ok level root ∧
      st'.vpc_projects[i]? =
        some (enrichPost site rest_project project_owner level root p) := by
  unfold pass1Step at h
  split at h
  · next hnone => rw [hp] at hnone; exact Option.noConfusion hnone
  · next p₀ hp₀ =>
    rw [hp] at hp₀
    obtain rfl := Option.some.inj hp₀
    split at h
    · exact Except.noConfusion h
    · next rest_project hr =>
      split at h
      · exact Except.noConfusion h
      · next project_owner ho =>
        split at h
        · next level root hw =>
          obtain rfl := Except.ok.inj h
          refine ⟨rest_project, project_owner, level, root, hr, ho, hw, ?_⟩
          have hlen : i < st.vpc_projects.length := by
            rcases List.getElem?_eq_some.mp hp with ⟨hlt, _⟩
            exact hlt
          exact List.getElem?_set_self hlen
        · exact Except.noConfusion h
        · exact Except.noConfusion h
        · exact Except.noConfusion h

theorem pass1Step_joinMiss {site : String} {fuel : Nat} {st : MainState} {i : Nat}
    {p : VPCProject} (hp : st.vpc_projects[i]? = some p)
    (hmiss : lookup_project_by_id st.rest_projects p.luid = none) :
    pass1Step site fuel st i = .error (.projectNotFound p.luid) := by
  simp only [pass1Step, hp, hmiss]

theorem pass1Step_ownerMiss {site : String} {fuel : Nat} {st : MainState} {i : Nat}
    {p : VPCProject} {rest_project : RestProject}
    (hp : st.vpc_projects[i]? = some p)
    (hr : lookup_project_by_id st.rest_projects p.luid = some rest_project)
    (ho : lookup_user_by_id st.vpc_users p.ownerId = none) :
    pass1Step site fuel st i = .error .ownerNoneTypeError := by
  simp only [pass1Step, hp, hr, ho]

theorem pass1Step_success {site : String} {fuel : Nat} {st : MainState} {i : Nat}
    {p : VPCProject} {rest_project : RestProject} {project_owner : VPUser}
    {level : Nat} {root : PyVal}
    (hp : st.vpc_projects[i]? = some p)
    (hr : lookup_project_by_id st.rest_projects p.luid = some rest_project)
    (ho : lookup_user_by_id st.vpc_users p.ownerId = some project_owner)
    (hw : get_project_level_and_root
        (st.vpc_projects.set i (enrichPre site rest_project project_owner p))
        (enrichPre site rest_project project_owner p) fuel = .ok level root) :
    pass1Step site fuel st i =
      .ok { st with vpc_projects :=
        (st.vpc_projects.set i (enrichPost site rest_project project_owner level root p)) } := by
  simp only [pass1Step, hp, hr, ho, hw]

/-! ## Pass-1 loop lemmas -/

theorem pass1Go_succ_error {site : String} {fuel k i : Nat} {st : MainState} {e : RunError}
    (hs : pass1Step site fuel st i = .error e) :
    pass1Go site fuel (k + 1) i st = .error e := by
  simp only [pass1Go, hs]

theorem pass1Go_succ_ok {site : String} {fuel k i : Nat} {st st₁ : MainState}
    (hs : pass1Step site fuel st i = .ok st₁) :
    pass1Go site fuel (k + 1) i st = pass1Go site fuel k (i + 1) st₁ := by
  simp only [pass1Go, hs]

theorem pass1Go_shape {site : String} {fuel : Nat} :
    ∀ {k i : Nat} {st st' : MainState}, pass1Go site fuel k i st = .ok st' →
    st'.rest_projects = st.rest_projects ∧ st'.vpc_users = st.vpc_users ∧
    List.Forall₂ coreEq st.vpc_projects st'.vpc_projects ∧
    st'.vpc_projects.length = st.vpc_projects.length := by
  intro k
  induction k with
  | zero =>
    intro i st st' h
    obtain rfl := Except.ok.inj h
    exact ⟨rfl, rfl, forall₂_coreEq_refl _, rfl⟩
  | succ k ih =>
    intro i st st' h
    cases hs : pass1Step site fuel st i with
    | error e => rw [pass1Go_succ_error hs] at h; exact Except.noConfusion h
    | ok st₁ =>
      rw [pass1Go_succ_ok hs] at h
      obtain ⟨h1, h2, h3, h4⟩ := pass1Step_shape hs
      obtain ⟨g1, g2, g3, g4⟩ := ih h
      exact ⟨g1.trans h1, g2.trans h2, forall₂_coreEq_trans h3 g3, g4.trans h4⟩

theorem pass1Go_untouched {site : String} {fuel : Nat} :
    ∀ {k i : Nat} {st st' : MainState}, pass1Go site fuel k i st = .ok st' →
    ∀ j : Nat, j < i → st'.vpc_projects[j]? = st.vpc_projects[j]? := by
  intro k
  induction k with
  | zero =>
    intro i st st' h j _
    obtain rfl := Except.ok.inj h
    rfl
  | succ k ih =>
    intro i st st' h j hj
    cases hs : pass1Step site fuel st i with
    | error e => rw [pass1Go_succ_error hs] at h; exact Except.noConfusion h
    | ok st₁ =>
      rw [pass1Go_succ_ok hs] at h
      rw [ih h j (Nat.lt_succ_of_lt hj)]
      exact pass1Step_untouched hs j (Nat.ne_of_lt hj)

theorem pass1Go_enriched {site : String} {fuel : Nat} :
    ∀ {k i : Nat} {st st' : MainState}, pass1Go site fuel k i st = .ok st' →
    ∀ (j : Nat) (p : VPCProject), i ≤ j → j < i + k → st.vpc_projects[j]? = some p →
    ∃ q, st'.vpc_projects[j]? = some q ∧ q.siteName = some site ∧
      q.contentPermissions.isSome = true ∧ q.ownerName.isSome = true ∧
      q.ownerDSID.isSome = true ∧ q.projectLevel.isSome = true ∧
      q.rootProjectId.isSome = true ∧ coreEq p q ∧ q.parentProject = p.parentProject := by
  intro k
  induction k with
  | zero => intro i st st' _ j p hij hijk _; omega
  | succ k ih =>
    intro i st st' h j p hij hijk hp
    cases hs : pass1Step site fuel st i with
    | error e => rw [pass1Go_succ_error hs] at h; exact Except.noConfusion h
    | ok st₁ =>
      rw [pass1Go_succ_ok hs] at h
      rcases Nat.eq_or_lt_of_le hij with rfl | hlt
      · obtain ⟨rp, ow, l, r, _, _, _, hi⟩ := pass1Step_enriched hs hp
        have hkeep := pass1Go_untouched h i (Nat.lt_succ_self i)
        refine ⟨enrichPost site rp ow l r p, ?_, rfl, rfl, rfl, rfl, rfl, rfl,
          ⟨rfl, rfl, rfl, rfl, rfl⟩, rfl⟩
        rw [hkeep]
        exact hi
      · have hst₁ : st₁.vpc_projects[j]? = some p := by
          rw [pass1Step_untouched hs j (Nat.ne_of_gt hlt)]
          exact hp
        exact ih h j p hlt (by omega) hst₁

theorem pass1Go_joins {site : String} {fuel : Nat} :
    ∀ {k i : Nat} {st st' : MainState}, pass1Go site fuel k i st = .ok st' →
    ∀ (j : Nat) (p : VPCProject), i ≤ j → j < i + k → st.vpc_projects[j]? = some p →
    (lookup_project_by_id st.rest_projects p.luid).isSome = true := by
  intro k
  induction k with
  | zero => intro i st st' _ j p hij hijk _; omega
  | succ k ih =>
    intro i st st' h j p hij hijk hp
    cases hs : pass1Step site fuel st i with
    | error e => rw [pass1Go_succ_error hs] at h; exact Except.noConfusion h
    | ok st₁ =>
      rw [pass1Go_succ_ok hs] at h
      rcases Nat.eq_or_lt_of_le hij with rfl | hlt
      · obtain ⟨rp, ow, l, r, hr, _, _, _⟩ := pass1Step_enriched hs hp
        rw [hr]
        rfl
      · have hst₁ : st₁.vpc_projects[j]? = some p := by
          rw [pass1Step_untouched hs j (Nat.ne_of_gt hlt)]
          exact hp
        have := ih h j p hlt (by omega) hst₁
        rwa [(pass1Step_shape hs).1] at this

theorem pass1Go_first_error {site : String} {fuel : Nat} {rest : List RestProject}
    {users : List VPUser} {ps₀ : List VPCProject} :
    ∀ {k i : Nat} {st : MainState}, st.rest_projects = rest → st.vpc_users = users →
    List.Forall₂ coreEq ps₀ st.vpc_projects →
    ∀ (m : Nat) (p : VPCProject), i ≤ m → m < i + k → ps₀[m]? = some p →
    lookup_project_by_id rest p.luid = none →
    (∀ (j : Nat) (q : VPCProject), i ≤ j → j < m → ps₀[j]? = some q →
      (lookup_project_by_id rest q.luid).isSome = true ∧
      (lookup_user_by_id users q.ownerId).isSome = true ∧
      ∃ l r, get_project_level_and_root ps₀ q fuel = .ok l r) →
    pass1Go site fuel k i st = .error (.projectNotFound p.luid) := by
  intro k
  induction k with
  | zero => intro i st _ _ _ m p him hmk _ _ _; omega
  | succ k ih =>
    intro i st hrest husers hcore m p him hmk hm hmiss hok
    rcases Nat.eq_or_lt_of_le him with rfl | hlt
    · obtain ⟨p', hp', hpp'⟩ := forall₂_coreEq_get? hcore i p hm
      have hmiss' : lookup_project_by_id st.rest_projects p'.luid = none := by
        rw [hrest, ← hpp'.2.1]
        exact hmiss
      rw [pass1Go_succ_error (pass1Step_joinMiss hp' hmiss')]
      rw [← hpp'.2.1]
    · have hmlen : m < ps₀.length := (List.getElem?_eq_some.mp hm).1
      have hilen : i < ps₀.length := by omega
      have hq0 : ps₀[i]? = some ps₀[i] := List.getElem?_eq_getElem hilen
      obtain ⟨hjoin, howner, l, r, hwalk⟩ := hok i ps₀[i] (Nat.le_refl i) hlt hq0
      obtain ⟨q', hq', hqq'⟩ := forall₂_coreEq_get? hcore i ps₀[i] hq0
      rw [← hrest] at hjoin
      rw [hqq'.2.1] at hjoin
      obtain ⟨rp, hrp⟩ := Option.isSome_iff_exists.mp hjoin
      rw [← husers] at howner
      rw [hqq'.2.2.2.2] at howner
      obtain ⟨ow, how⟩ := Option.isSome_iff_exists.mp howner
      have hcoreSet : List.Forall₂ coreEq ps₀
          (st.vpc_projects.set i (enrichPre site rp ow q')) :=
        forall₂_coreEq_set hcore i (fun b hb => by
          rw [hq'] at hb
          obtain rfl := Option.some.inj hb
          exact ⟨rfl, rfl, rfl, rfl, rfl⟩)
      have hw' : get_project_level_and_root
          (st.vpc_projects.set i (enrichPre site rp ow q'))
          (enrichPre site rp ow q') fuel = .ok l r := by
        have heq := get_level_core hcoreSet ps₀[i] (enrichPre site rp ow q')
          (coreEq_trans hqq' ⟨rfl, rfl, rfl, rfl, rfl⟩) fuel
        rw [← heq]
        exact hwalk
      rw [pass1Go_succ_ok (pass1Step_success hq' hrp how hw')]
      refine ih ?_ ?_ ?_ m p hlt ?_ hm hmiss ?_
      · exact hrest
      · exact husers
      · exact forall₂_coreEq_set hcore i (fun b hb => by
          rw [hq'] at hb
          obtain rfl := Option.some.inj hb
          exact ⟨rfl, rfl, rfl, rfl, rfl⟩)
      · omega
      · intro j q hij hjm hq
        exact hok j q (Nat.le_of_succ_le hij) hjm hq

/-! ## Pass-2 lemmas -/

theorem sansParent_pass2Update (base : List VPCProject) (p : VPCProject) :
    sansParent (pass2Update base p) = sansParent p := by
  unfold pass2Update
  split
  · rfl
  · split
    · rfl
    · rfl

theorem pass2Step_rest (st : MainState) (i : Nat) :
    (pass2Step st i).rest_projects = st.rest_projects := by
  unfold pass2Step
  split <;> rfl

theorem pass2Step_users (st : MainState) (i : Nat) :
    (pass2Step st i).vpc_users = st.vpc_users := by
  unfold pass2Step
  split <;> rfl

theorem pass2Go_rest : ∀ (k i : Nat) (st : MainState),
    (pass2Go k i st).rest_projects = st.rest_projects := by
  intro k
  induction k with
  | zero => intro i st; rfl
  | succ k ih =>
    intro i st
    simp only [pass2Go]
    rw [ih (i + 1) (pass2Step st i)]
    exact pass2Step_rest st i

theorem pass2Go_users : ∀ (k i : Nat) (st : MainState),
    (pass2Go k i st).vpc_users = st.vpc_users := by
  intro k
  induction k with
  | zero => intro i st; rfl
  | succ k ih =>
    intro i st
    simp only [pass2Go]
    rw [ih (i + 1) (pass2Step st i)]
    exact pass2Step_users st i

theorem pass2Step_sans (st : MainState) (i j : Nat) :
    ((pass2Step st i).vpc_projects[j]?).map sansParent =
      (st.vpc_projects[j]?).map sansParent := by
  unfold pass2Step
  split
  · rfl
  · next p hp =>
    by_cases hij : i = j
    · subst hij
      have hlen : i < st.vpc_projects.length := (List.getElem?_eq_some.mp hp).1
      show ((st.vpc_projects.set i (pass2Update st.vpc_projects p))[i]?).map sansParent = _
      rw [List.getElem?_set_self hlen, hp]
      simp only [Option.map_some']
      rw [sansParent_pass2Update]
    · show ((st.vpc_projects.set i (pass2Update st.vpc_projects p))[j]?).map sansParent = _
      rw [List.getElem?_set_ne hij]

theorem pass2Go_sans : ∀ (k i : Nat) (st : MainState) (j : Nat),
    ((pass2Go k i st).vpc_projects[j]?).map sansParent =
      (st.vpc_projects[j]?).map sansParent := by
  intro k
  induction k with
  | zero => intro i st j; rfl
  | succ k ih =>
    intro i st j
    simp only [pass2Go]
    rw [ih (i + 1) (pass2Step st i) j]
    exact pass2Step_sans st i j

/-! ## C2: missing authoritative project aborts the run with the luid -/

/-- C2: if the rich project at index `m` has no REST counterpart for its
luid, and every project processed before it enriches successfully, then
the whole run aborts with the exception whose message carries exactly
that project's luid — an `Except.error` result means the run stopped
before `json.dump`, so no output is written. -/
theorem c2_join_inconsistency (site : String) (fuel : Nat) (rest : List RestProject)
    (users : List VPUser) (ps : List VPCProject) (m : Nat) (p : VPCProject)
    (hm : ps[m]? = some p)
    (hmiss : lookup_project_by_id rest p.luid = none)
    (hok : ∀ (j : Nat) (q : VPCProject), j < m → ps[j]? = some q →
      (lookup_project_by_id rest q.luid).isSome = true ∧
      (lookup_user_by_id users q.ownerId).isSome = true ∧
      ∃ l r, get_project_level_and_root ps q fuel = .ok l r) :
    runMain site fuel ⟨rest, users, ps⟩ = .error (.projectNotFound p.luid) := by
  have hmlen : m < ps.length := (List.getElem?_eq_some.mp hm).1
  have h1 : pass1Go site fuel ps.length 0 ⟨rest, users, ps⟩ =
      .error (.projectNotFound p.luid) :=
    pass1Go_first_error rfl rfl (forall₂_coreEq_refl ps) m p (Nat.zero_le m) (by omega)
      hm hmiss (fun j q _ hjm hq => hok j q hjm hq)
  simp only [runMain, h1]

/-- C2 witness: a single rich project with luid "9" and an empty REST
collection; the run aborts naming luid "9". -/
theorem c2_witness :
    runMain "s" 3 badJoinFix = .error (.projectNotFound (.str "9")) :=
  c2_join_inconsistency "s" 3 [] [] badJoinFix.vpc_projects 0
    ⟨.str "91", .str "9", true, none, .str "u1",
     none, none, none, none, none, none, none⟩
    (by decide) (by decide)
    (fun j q hj _ => absurd hj (Nat.not_lt_zero j))

/-! ## C5: missing owner -/

/-- C5: with a rich project whose ownerId "u9" matches no user (join to
REST succeeds), the run aborts — but with the bare `TypeError` from
subscripting `None` (`project_owner["displayName"]`), an error that
carries no entity identifier and names no invariant, unlike the
luid-bearing `projectNotFound` raise one line above it in the source. -/
theorem c5_owner_miss_typeerror :
    runMain "s" 3 ownerMissFix = .error .ownerNoneTypeError := by rfl

/-! ## C8: the reconciliation mutates only the rich projects -/

/-- C8: a completed run leaves the REST project collection and the user
collection exactly as fetched; both passes write only into the
VizPortal project records. -/
theorem c8_frame (site : String) (fuel : Nat) (st fin : MainState)
    (h : runMain site fuel st = .ok fin) :
    fin.rest_projects = st.rest_projects ∧ fin.vpc_users = st.vpc_users := by
  cases hp1 : pass1Go site fuel st.vpc_projects.length 0 st with
  | error e =>
    have hrw : runMain site fuel st = .error e := by simp only [runMain, hp1]
    rw [hrw] at h
    exact Except.noConfusion h
  | ok st₁ =>
    have hrw : runMain site fuel st = .ok (pass2Go st₁.vpc_projects.length 0 st₁) := by
      simp only [runMain, hp1]
    rw [hrw] at h
    obtain rfl := Except.ok.inj h
    obtain ⟨h1, h2, _, _⟩ := pass1Go_shape hp1
    constructor
    · rw [pass2Go_rest]
      exact h1
    · rw [pass2Go_users]
      exact h2

/-- C8 witness: the end-to-end fixture run returns the REST and user
collections unchanged. -/
theorem c8_witness :
    mainFixOut.rest_projects = mainFix.rest_projects ∧
    mainFixOut.vpc_users = mainFix.vpc_users :=
  c8_frame "site" 9 mainFix mainFixOut rfl

/-! ## C9: the site name is attached verbatim to every output record -/

/-- C9: every record of a completed run's output carries the configured
site-name string, verbatim, in its `siteName` field. -/
theorem c9_site_name (site : String) (fuel : Nat) (st fin : MainState)
    (h : runMain site fuel st = .ok fin) :
    ∀ p ∈ fin.vpc_projects, p.siteName = some site := by
  intro p hp
  cases hp1 : pass1Go site fuel st.vpc_projects.length 0 st with
  | error e =>
    have hrw : runMain site fuel st = .error e := by simp only [runMain, hp1]
    rw [hrw] at h
    exact Except.noConfusion h
  | ok st₁ =>
    have hrw : runMain site fuel st = .ok (pass2Go st₁.vpc_projects.length 0 st₁) := by
      simp only [runMain, hp1]
    rw [hrw] at h
    obtain rfl := Except.ok.inj h
    obtain ⟨j, hjlt, hj⟩ := List.mem_iff_getElem.mp hp
    have hj2 : (pass2Go st₁.vpc_projects.length 0 st₁).vpc_projects[j]? = some p := by
      rw [List.getElem?_eq_getElem hjlt, hj]
    have hsans := pass2Go_sans st₁.vpc_projects.length 0 st₁ j
    rw [hj2] at hsans
    cases hq : st₁.vpc_projects[j]? with
    | none => rw [hq] at hsans; exact Option.noConfusion hsans
    | some q =>
      rw [hq] at hsans
      have hpq : sansParent p = sansParent q := by simpa using hsans
      obtain ⟨_, _, _, hlen⟩ := pass1Go_shape hp1
      have hjq : j < st₁.vpc_projects.length := (List.getElem?_eq_some.mp hq).1
      have hjlen : j < st.vpc_projects.length := by omega
      have hp₀ : st.vpc_projects[j]? = some st.vpc_projects[j] :=
        List.getElem?_eq_getElem hjlen
      obtain ⟨q', hq', hsite, _⟩ :=
        pass1Go_enriched hp1 j _ (Nat.zero_le j) (by omega) hp₀
      rw [hq] at hq'
      obtain rfl := Option.some.inj hq'
      have hps0 := congrArg VPCProject.siteName hpq
      have hps : p.siteName = q.siteName := hps0
      rw [hps, hsite]

/-- C9 witness: the first output record of the end-to-end fixture run
carries the configured site name. -/
theorem c9_witness :
    ∃ p, mainFixOut.vpc_projects[0]? = some p ∧ p.siteName = some "site" := by
  obtain ⟨p, hp⟩ : ∃ p, mainFixOut.vpc_projects[0]? = some p := ⟨_, rfl⟩
  exact ⟨p, hp, c9_site_name "site" 9 mainFix mainFixOut rfl p (List.getElem?_mem hp)⟩

/-! ## Pass-2 characterization -/

theorem pass2Update_parentProjectId (base : List VPCProject) (p : VPCProject) :
    (pass2Update base p).parentProjectId = p.parentProjectId := by
  unfold pass2Update
  split
  · rfl
  · split <;> rfl

theorem coreEq_pass2Update (base : List VPCProject) (p : VPCProject) :
    coreEq p (pass2Update base p) := by
  unfold pass2Update
  split
  · exact coreEq_refl _
  · split
    · exact ⟨rfl, rfl, rfl, rfl, rfl⟩
    · exact coreEq_refl _

theorem pass2Update_core_base {b₁ b₂ : List VPCProject} (h : List.Forall₂ coreEq b₁ b₂)
    (p : VPCProject) : pass2Update b₁ p = pass2Update b₂ p := by
  unfold pass2Update
  split
  · rfl
  · rw [lookup_parent_index_core h]

theorem pass2Update_truthy (base : List VPCProject) (p : VPCProject) (pid : PyVal)
    (hpid : p.parentProjectId = some pid) (ht : pyTruthy pid = true) :
    pass2Update base p = { p with parentProject := some (lookup_parent_index base pid) } := by
  unfold pass2Update
  split
  · next hq => rw [hpid] at hq; exact Option.noConfusion hq
  · next pid' hq =>
    rw [hpid] at hq
    obtain rfl := Option.some.inj hq
    rw [if_pos ht]

theorem pass2Update_falsy (base : List VPCProject) (p : VPCProject) (pid : PyVal)
    (hpid : p.parentProjectId = some pid) (ht : pyTruthy pid = false) :
    pass2Update base p = p := by
  unfold pass2Update
  split
  · rfl
  · next pid' hq =>
    rw [hpid] at hq
    obtain rfl := Option.some.inj hq
    rw [ht, if_neg Bool.false_ne_true]

theorem pass2Update_nopid (base : List VPCProject) (p : VPCProject)
    (hpid : p.parentProjectId = none) :
    pass2Update base p = p := by
  unfold pass2Update
  split
  · rfl
  · next pid' hq => rw [hpid] at hq; exact Option.noConfusion hq

theorem pass2Step_untouched (st : MainState) (i j : Nat) (hij : j ≠ i) :
    (pass2Step st i).vpc_projects[j]? = st.vpc_projects[j]? := by
  unfold pass2Step
  split
  · rfl
  · exact List.getElem?_set_ne (fun e => hij e.symm)

theorem pass2Go_untouched : ∀ (k i : Nat) (st : MainState) (j : Nat), j < i →
    (pass2Go k i st).vpc_projects[j]? = st.vpc_projects[j]? := by
  intro k
  induction k with
  | zero => intro i st j _; rfl
  | succ k ih =>
    intro i st j hj
    simp only [pass2Go]
    rw [ih (i + 1) (pass2Step st i) j (Nat.lt_succ_of_lt hj)]
    exact pass2Step_untouched st i j (Nat.ne_of_lt hj)

theorem pass2Step_self (st : MainState) (i : Nat) (p : VPCProject)
    (hp : st.vpc_projects[i]? = some p) :
    (pass2Step st i).vpc_projects[i]? = some (pass2Update st.vpc_projects p) := by
  have hlen : i < st.vpc_projects.length := (List.getElem?_eq_some.mp hp).1
  unfold pass2Step
  rw [hp]
  show (st.vpc_projects.set i (pass2Update st.vpc_projects p))[i]? =
    some (pass2Update st.vpc_projects p)
  exact List.getElem?_set_self hlen

theorem pass2Step_core (st : MainState) (i : Nat) :
    List.Forall₂ coreEq st.vpc_projects (pass2Step st i).vpc_projects := by
  unfold pass2Step
  split
  · exact forall₂_coreEq_refl _
  · next p hp =>
    exact forall₂_coreEq_set (forall₂_coreEq_refl _) i (fun b hb => by
      rw [hp] at hb
      obtain rfl := Option.some.inj hb
      exact coreEq_pass2Update st.vpc_projects p)

theorem pass2Go_core : ∀ (k i : Nat) (st : MainState),
    List.Forall₂ coreEq st.vpc_projects (pass2Go k i st).vpc_projects := by
  intro k
  induction k with
  | zero => intro i st; exact forall₂_coreEq_refl _
  | succ k ih =>
    intro i st
    simp only [pass2Go]
    exact forall₂_coreEq_trans (pass2Step_core st i) (ih (i + 1) (pass2Step st i))

theorem pass2Go_final : ∀ (k i : Nat) (st : MainState) (st₀ : List VPCProject),
    List.Forall₂ coreEq st₀ st.vpc_projects →
    ∀ (j : Nat) (p : VPCProject), i ≤ j → j < i + k → st.vpc_projects[j]? = some p →
    (pass2Go k i st).vpc_projects[j]? = some (pass2Update st₀ p) := by
  intro k
  induction k with
  | zero => intro i st st₀ _ j p hij hjk _; omega
  | succ k ih =>
    intro i st st₀ hcore j p hij hjk hp
    simp only [pass2Go]
    rcases Nat.eq_or_lt_of_le hij with rfl | hlt
    · rw [pass2Go_untouched k (i + 1) (pass2Step st i) i (Nat.lt_succ_self i)]
      rw [pass2Step_self st i p hp]
      rw [pass2Update_core_base (forall₂_coreEq_symm hcore) p]
    · refine ih (i + 1) (pass2Step st i) st₀ ?_ j p hlt (by omega) ?_
      · exact forall₂_coreEq_trans hcore (pass2Step_core st i)
      · rw [pass2Step_untouched st i j (Nat.ne_of_gt hlt)]
        exact hp

/-! ## C6: pass-2 parent embedding -/

/-- C6 (amended): after a completed run, every output record whose
parent-identifier key is present AND truthy (in particular non-empty)
holds in `parentProject` the reference produced by the parent lookup —
an alias into the shared output collection, so dereferencing it yields
exactly the parent lookup's result in the final collection, a record
that is fully pass-1-enriched (its `ownerName` and `projectLevel` are
set); every record whose parent-identifier is absent or falsy keeps no
`parentProject` key (given none was present in the input). -/
theorem c6_parent_embedding (site : String) (fuel : Nat) (st fin : MainState)
    (h : runMain site fuel st = .ok fin)
    (hinit : ∀ p0 ∈ st.vpc_projects, p0.parentProject = none) :
    ∀ (j : Nat) (p : VPCProject), fin.vpc_projects[j]? = some p →
      (∀ pid : PyVal, p.parentProjectId = some pid → pyTruthy pid = true →
        p.parentProject = some (lookup_parent_index fin.vpc_projects pid) ∧
        (lookup_parent_index fin.vpc_projects pid).bind (fun t => fin.vpc_projects[t]?) =
          lookup_parent_project fin.vpc_projects pid ∧
        (∀ (t : Nat) (q : VPCProject), lookup_parent_index fin.vpc_projects pid = some t →
          fin.vpc_projects[t]? = some q →
          q.ownerName.isSome = true ∧ q.projectLevel.isSome = true)) ∧
      ((∀ pid : PyVal, p.parentProjectId = some pid → pyTruthy pid = false) →
        p.parentProject = none) := by
  intro j p hp
  cases hp1 : pass1Go site fuel st.vpc_projects.length 0 st with
  | error e =>
    have hrw : runMain site fuel st = .error e := by simp only [runMain, hp1]
    rw [hrw] at h
    exact Except.noConfusion h
  | ok st₁ =>
    have hrw : runMain site fuel st = .ok (pass2Go st₁.vpc_projects.length 0 st₁) := by
      simp only [runMain, hp1]
    rw [hrw] at h
    obtain rfl := Except.ok.inj h
    obtain ⟨hrest, husers, hcore1, hlen1⟩ := pass1Go_shape hp1
    have hcore2 : List.Forall₂ coreEq st₁.vpc_projects
        (pass2Go st₁.vpc_projects.length 0 st₁).vpc_projects :=
      pass2Go_core st₁.vpc_projects.length 0 st₁
    have hjfin : j < (pass2Go st₁.vpc_projects.length 0 st₁).vpc_projects.length :=
      (List.getElem?_eq_some.mp hp).1
    have hjst₁ : j < st₁.vpc_projects.length := by
      have := hcore2.length_eq
      omega
    have hjst : j < st.vpc_projects.length := by omega
    have hp₀ : st.vpc_projects[j]? = some st.vpc_projects[j] :=
      List.getElem?_eq_getElem hjst
    obtain ⟨q, hq, hsite, hperm, hown, hdsid, hlvl, hroot, hcoreq, hpar⟩ :=
      pass1Go_enriched hp1 j _ (Nat.zero_le j) (by omega) hp₀
    have hfinj : (pass2Go st₁.vpc_projects.length 0 st₁).vpc_projects[j]? =
        some (pass2Update st₁.vpc_projects q) :=
      pass2Go_final st₁.vpc_projects.length 0 st₁ st₁.vpc_projects
        (forall₂_coreEq_refl _) j q (Nat.zero_le j) (by omega) hq
    rw [hp] at hfinj
    obtain rfl := Option.some.inj hfinj
    constructor
    · intro pid hpid htruthy
      have hqpid : q.parentProjectId = some pid := by
        rw [← pass2Update_parentProjectId st₁.vpc_projects q]
        exact hpid
      have hpeq : pass2Update st₁.vpc_projects q =
          { q with parentProject := some (lookup_parent_index st₁.vpc_projects pid) } :=
        pass2Update_truthy st₁.vpc_projects q pid hqpid htruthy
      refine ⟨?_, lookup_parent_index_bind _ _, ?_⟩
      · rw [hpeq]
        show some (lookup_parent_index st₁.vpc_projects pid) = _
        rw [lookup_parent_index_core hcore2 pid]
      · intro t qt ht hqt
        have hsans := pass2Go_sans st₁.vpc_projects.length 0 st₁ t
        rw [hqt] at hsans
        cases hq2 : st₁.vpc_projects[t]? with
        | none => rw [hq2] at hsans; exact Option.noConfusion hsans
        | some q₂ =>
          rw [hq2] at hsans
          have hsq : sansParent qt = sansParent q₂ := by simpa using hsans
          have htlen : t < st₁.vpc_projects.length := (List.getElem?_eq_some.mp hq2).1
          have htst : t < st.vpc_projects.length := by omega
          obtain ⟨q₂', hq₂', _, _, hown₂, _, hlvl₂, _, _, _⟩ :=
            pass1Go_enriched hp1 t _ (Nat.zero_le t) (by omega)
              (List.getElem?_eq_getElem htst)
          rw [hq2] at hq₂'
          obtain rfl := Option.some.inj hq₂'
          constructor
          · have h1 := congrArg VPCProject.ownerName hsq
            have h2 : qt.ownerName = q₂.ownerName := h1
            rw [h2]
            exact hown₂
          · have h1 := congrArg VPCProject.projectLevel hsq
            have h2 : qt.projectLevel = q₂.projectLevel := h1
            rw [h2]
            exact hlvl₂
    · intro hfalsy
      have hpeq : pass2Update st₁.vpc_projects q = q := by
        cases hqp : q.parentProjectId with
        | none => exact pass2Update_nopid st₁.vpc_projects q hqp
        | some pid =>
          have hfl : pyTruthy pid = false := hfalsy pid (by
            rw [pass2Update_parentProjectId]
            exact hqp)
          exact pass2Update_falsy st₁.vpc_projects q pid hqp hfl
      rw [hpeq, hpar]
      exact hinit _ (List.getElem?_mem hp₀)

/-- C6 counterexample: with the empty-string parent-id fixture the run
completes, the second output record has its parent-identifier key
present (`some ""`, non-absent) and a project with id `""` exists in the
collection — yet pass 2 wrote no `parentProject` key, because the
source guards on Python truthiness (`if parent_project_id:`) and `""`
is falsy. -/
theorem c6_counterexample :
    ∃ fin p, runMain "s" 5 emptyIdFix = .ok fin ∧
      fin.vpc_projects[1]? = some p ∧
      p.parentProjectId = some (.str "") ∧
      (lookup_parent_project fin.vpc_projects (.str "")).isSome = true ∧
      p.parentProject = none :=
  ⟨_, _, rfl, rfl, rfl, rfl, rfl⟩

/-- C6 witness: in the end-to-end fixture, project "3" ends up with a
parent reference that dereferences to the enriched project "2" record. -/
theorem c6_witness :
    mainFixOut.vpc_projects[2]? = some fixP3out ∧
    fixP3out.parentProject = some (lookup_parent_index mainFixOut.vpc_projects (.str "12")) ∧
    ∃ t q, lookup_parent_index mainFixOut.vpc_projects (.str "12") = some t ∧
      mainFixOut.vpc_projects[t]? = some q ∧ q.ownerName.isSome = true ∧
      q.projectLevel.isSome = true := by
  have h := (c6_parent_embedding "site" 9 mainFix mainFixOut rfl (by decide) 2 fixP3out
    rfl).1 (.str "12") rfl rfl
  obtain ⟨qv, hqv⟩ : ∃ qv, mainFixOut.vpc_projects[1]? = some qv := ⟨_, rfl⟩
  exact ⟨rfl, h.1, 1, qv, rfl, hqv, (h.2.2 1 qv rfl hqv).1, (h.2.2 1 qv rfl hqv).2⟩

/-! ## C7: the authoritative fetch caps the page at 600 items -/

set_option maxRecDepth 20000 in
/-- C7 counterexample: a server holding 601 projects.  The payload the
source sends (`startIndex 0, maxItems 600`) makes the single batch call
return only the first 600 projects, so project number 600 is missing
from the snapshot — the core does impose a size limit. -/
theorem c7_counterexample :
    ∃ p, p ∈ bigServer.projects ∧ ¬ p ∈ (get_project_vpc_data bigServer).1 := by
  refine ⟨mkServerProject 600,
    List.mem_append_right _ (List.mem_singleton.mpr rfl), ?_⟩
  intro h2
  have hlen : ((List.range 600).map mkServerProject).length = 600 := by simp
  have hret : (get_project_vpc_data bigServer).1 = (List.range 600).map mkServerProject := by
    show (((List.range 600).map mkServerProject ++ [mkServerProject 600]).drop 0).take 600 = _
    rw [List.drop_zero]
    exact List.take_left' hlen
  rw [hret] at h2
  obtain ⟨a, ha, he⟩ := List.mem_map.mp h2
  have hid := congrArg VPCProject.id he
  have hid2 : PyVal.int a = PyVal.int 600 := hid
  have ha6 : (a : Int) = (600 : Nat) := PyVal.int.inj hid2
  have halt : a < 600 := List.mem_range.mp ha
  omega

/-- C7 (amended): the fetch is one batch call requesting the page
`startIndex 0, maxItems 600`; it is a complete snapshot exactly when
the server's dataset fits in that page (at most 600 projects). -/
theorem c7_batch_within_page (server : VizPortalServer)
    (h : server.projects.length ≤ 600) :
    get_project_vpc_data server = (server.projects, server.users) := by
  unfold get_project_vpc_data serverGetProjects
  rw [List.drop_zero, List.take_of_length_le h]

/-- C7 witness: a two-project server is returned whole. -/
theorem c7_witness :
    smallServer.projects.length ≤ 600 ∧
    get_project_vpc_data smallServer = (smallServer.projects, smallServer.users) :=
  ⟨by decide, c7_batch_within_page smallServer (by decide)⟩

/-! ## C10: query-coercion asymmetry of the three lookups -/

/-- C10: the two VizPortal lookups coerce the query with `str(...)`
before comparing — each returns the first entry whose stored id equals
the string form of the query (so an integer query matches its
decimal-string stored form) — while the REST lookup compares with plain
`==` and no coercion, so an integer query never matches string-typed
stored ids. -/
theorem c10_lookup_coercion (vpc_users : List VPUser) (vpc_projects : List VPCProject)
    (items : List RestProject) (user_id parent_id : PyVal) (n : Int)
    (hstr : ∀ it ∈ items, ∃ s, it.id = PyVal.str s) :
    lookup_user_by_id vpc_users user_id =
      vpc_users.find? (fun user => decide (user.id = PyVal.str (pyStr user_id))) ∧
    lookup_parent_project vpc_projects parent_id =
      vpc_projects.find? (fun project => decide (project.id = PyVal.str (pyStr parent_id))) ∧
    lookup_project_by_id items (PyVal.int n) = none := by
  refine ⟨?_, ?_, ?_⟩
  · unfold lookup_user_by_id
    simp only [pyEq_eq_decide]
  · unfold lookup_parent_project
    simp only [pyEq_eq_decide]
  · unfold lookup_project_by_id
    rw [List.find?_eq_none]
    intro it hit
    obtain ⟨s, hs⟩ := hstr it hit
    rw [hs]
    simp [pyEq]

/-- C10 witness: the integer query `5` finds the user whose stored id is
the string "5", but finds no REST project whose stored id is the string
"5". -/
theorem c10_witness :
    lookup_user_by_id [⟨.str "5", "A", "a"⟩] (.int 5) = some ⟨.str "5", "A", "a"⟩ ∧
    lookup_project_by_id [⟨.str "5", "managed"⟩] (.int 5) = none := by
  have h := c10_lookup_coercion [⟨.str "5", "A", "a"⟩] [] [⟨.str "5", "managed"⟩]
    (.int 5) (.int 5) 5
    (by
      intro it hit
      rw [List.mem_singleton] at hit
      subst hit
      exact ⟨"5", rfl⟩)
  refine ⟨?_, h.2.2⟩
  rw [h.1]
  decide
